

import Mathlib

/-!  Verification development for the lxSwappable hot-swappable pointer library.

The definitions below are a shallow embedding of `lxSwappablePointer.h` and
`lxSwappablePointer.cpp` (namespace `lx`).  Arrays reached through raw C
pointers are modelled as total functions from `Nat` (the array index), so that
out-of-range accesses performed by the code are recorded instead of hidden;
machine integers are modelled as `Nat` (or `Int` where the source uses `int`)
with explicit `% 2 ^ w` truncation at every narrowing cast the source performs.
-/

/-- Pointwise update of a function modelling an in-memory array. -/
def updF {α : Type} (f : Nat → α) (i : Nat) (v : α) : Nat → α :=
  fun j => if j = i then v else f j

/-- Constant `SwappableManager::NULL_IDX` — the 24-bit null sentinel `0x00FFFFFF`. -/
def NULL_IDX : Nat := 0x00FFFFFF

/-- Constant `SwappableManager::NULL_IDX16` — 16-bit part of the null sentinel. -/
def NULL_IDX16 : Nat := 0xFFFF

/-- Constant `SwappableManager::NULL_IDX8` — 8-bit part of the null sentinel. -/
def NULL_IDX8 : Nat := 0xFF

/-- Structure `SwappableManager::SLOTLIST`: one 6-byte doubly-linked-list node per slot,
each 24-bit index split into a 16-bit low part and an 8-bit high part. -/
structure SLOTLIST where
  m_prev16 : Nat
  m_next16 : Nat
  m_prev8  : Nat
  m_next8  : Nat
deriving DecidableEq

/-- Reassembled next index: `e->m_next16 | (e->m_next8 << 16)`. -/
def SLOTLIST.nextIdx (e : SLOTLIST) : Nat := e.m_next16 ||| (e.m_next8 <<< 16)

/-- Reassembled previous index: `e->m_prev16 | (e->m_prev8 << 16)`. -/
def SLOTLIST.prevIdx (e : SLOTLIST) : Nat := e.m_prev16 ||| (e.m_prev8 <<< 16)

/-- The store pair `e->m_next16 = (unsigned short) v;
`e->m_next8 = (unsigned char)(v >> 16);` for an unsigned `v`. -/
def SLOTLIST.withNext (e : SLOTLIST) (v : Nat) : SLOTLIST :=
  { e with m_next16 := v % 65536, m_next8 := (v >>> 16) % 256 }

/-- The store pair `e->m_prev16 = (unsigned short) v;
`e->m_prev8 = (unsigned char)(v >> 16);` for an unsigned `v`. -/
def SLOTLIST.withPrev (e : SLOTLIST) (v : Nat) : SLOTLIST :=
  { e with m_prev16 := v % 65536, m_prev8 := (v >>> 16) % 256 }

/-- Structure `SwappableManager::ITEM`: per-slot entry holding the registered `Swappable*`
(back-pointer, as an identifier) and the head of that target's reference list
(`SwappableInstance*`, as an address). -/
structure ITEM where
  m_item : Option Nat
  m_linkList : Option Nat
deriving DecidableEq

/-- State of a `SwappableManager`: the two arrays (as total functions over the
index, so stores past the allocated range are recorded) and the four counters /
list heads. -/
structure SwappableManager where
  m_arrayList : Nat → ITEM
  m_allocList : Nat → SLOTLIST
  m_freeSwappable : Nat
  m_totalSwappable : Nat
  m_usedIdxSwappable : Nat
  m_freeIdxSwappable : Nat

/-- Value of `sizeof(SwappableManager::ITEM)`: two pointers, 8 bytes each on the assumed
LP64 target. -/
def sizeofITEM : Nat := 16

/-- Value of `sizeof(SwappableManager::SLOTLIST)`: 2+2+1+1 bytes, alignment 2 — "6 Byte
per entry" per the source comment. -/
def sizeofSLOTLIST : Nat := 6

/-- Function `SwappableManager::getAllocSize`. -/
def SwappableManager.getAllocSize (SwappableMaxCount : Nat) : Nat :=
  SwappableMaxCount * sizeofITEM + SwappableMaxCount * sizeofSLOTLIST

/-- In `SwappableManager::init` the loop writes `idx = n - 1` (a C `int`, equal
to `-1` when `n = 0`) through the casts `(unsigned short)idx` and
`(unsigned char)(idx >> 16)`; conversion of a signed value to an unsigned type
reduces it modulo `2 ^ w`, and `>>` of a negative `int` is the arithmetic
shift, i.e. floor division by `2 ^ 16`; both coincide with `Int`'s `%` and `/`
for these positive divisors. -/
def initPrev16 (n : Nat) : Nat := (((n : Int) - 1) % 65536).toNat

/-- 8-bit high part of the `m_prev` store in the `init` loop; see `initPrev16`. -/
def initPrev8 (n : Nat) : Nat := ((((n : Int) - 1) / 65536) % 256).toNat

/-- The link node written for index `n` by the loop body of
`SwappableManager::init`: next parts store `n + 1`, prev parts store `n - 1`. -/
def initSlot (n : Nat) : SLOTLIST :=
  { m_next16 := (n + 1) % 65536, m_next8 := ((n + 1) >>> 16) % 256,
    m_prev16 := initPrev16 n, m_prev8 := initPrev8 n }

/-- The `for (n = 0; n < maxCount; n++)` loop of `SwappableManager::init`,
having processed indices `0 .. k - 1`. -/
def initLoop (mem : Nat → SLOTLIST) : Nat → (Nat → SLOTLIST)
  | 0 => mem
  | k + 1 => updF (initLoop mem k) k (initSlot k)

/-- The link-node array produced by `SwappableManager::init` on success: the
loop over indices `0 .. maxCount - 1`, followed by the final two stores
(`m_allocList[n].m_next16 = NULL_IDX16; m_allocList[n].m_next8 = NULL_IDX8;`)
which execute after the loop with `n == SwappableMaxCount`, i.e. they hit the
link node one past the last one inside the allocated range. -/
def initMem (mem : Nat → SLOTLIST) (SwappableMaxCount : Nat) : Nat → SLOTLIST :=
  let mem1 := initLoop mem SwappableMaxCount
  updF mem1 SwappableMaxCount
    { mem1 SwappableMaxCount with m_next16 := NULL_IDX16, m_next8 := NULL_IDX8 }

/-- Function `SwappableManager::init`. -/
def SwappableManager.init (st : SwappableManager) (bufferSize SwappableMaxCount : Nat) :
    Bool × SwappableManager :=
  if bufferSize ≥ SwappableManager.getAllocSize SwappableMaxCount then
    (true, { st with
      m_allocList := initMem st.m_allocList SwappableMaxCount,
      m_freeSwappable := SwappableMaxCount,
      m_totalSwappable := SwappableMaxCount,
      m_usedIdxSwappable := NULL_IDX,
      m_freeIdxSwappable := 0 })
  else
    (false, st)

/-- Function `SwappableManager::allocateSwappable`.  On failure it returns
`(unsigned int)-1 = 4294967295`; `m_freeSwappable--` is 32-bit wrapping. -/
def SwappableManager.allocateSwappable (st : SwappableManager) (pTracker : Nat) :
    Nat × SwappableManager :=
  let oldFree := st.m_freeIdxSwappable
  if oldFree ≠ NULL_IDX then
    let mem0 := st.m_allocList
    let newFreeHead := (mem0 oldFree).nextIdx
    let mem1 := updF mem0 oldFree
      { (mem0 oldFree).withNext st.m_usedIdxSwappable with
        m_prev16 := NULL_IDX16, m_prev8 := NULL_IDX8 }
    let mem2 :=
      if st.m_usedIdxSwappable ≠ NULL_IDX then
        updF mem1 st.m_usedIdxSwappable ((mem1 st.m_usedIdxSwappable).withPrev oldFree)
      else mem1
    (oldFree, { st with
      m_allocList := mem2,
      m_arrayList := updF st.m_arrayList oldFree { m_item := some pTracker, m_linkList := none },
      m_usedIdxSwappable := oldFree,
      m_freeIdxSwappable := newFreeHead,
      m_freeSwappable := (st.m_freeSwappable + 4294967295) % 4294967296 })
  else
    (4294967295, st)

/-- Function `SwappableManager::freeSwappable`; `m_freeSwappable++` is 32-bit wrapping. -/
def SwappableManager.freeSwappable (st : SwappableManager) (handle : Nat) : SwappableManager :=
  let mem0 := st.m_allocList
  let next := (mem0 handle).nextIdx
  let prev := (mem0 handle).prevIdx
  let mem1 := if next ≠ NULL_IDX then updF mem0 next ((mem0 next).withPrev prev) else mem0
  let mem2 := if prev ≠ NULL_IDX then updF mem1 prev ((mem1 prev).withNext next) else mem1
  let usedHead := if prev ≠ NULL_IDX then st.m_usedIdxSwappable else next
  let mem3 := updF mem2 handle ((mem2 handle).withNext st.m_freeIdxSwappable)
  { st with
    m_allocList := mem3,
    m_usedIdxSwappable := usedHead,
    m_freeIdxSwappable := handle,
    m_freeSwappable := (st.m_freeSwappable + 1) % 4294967296 }

/-- Indices reached from `head` by following `nextIdx` links until the null
sentinel, giving up after `fuel` steps. -/
def chainFrom (mem : Nat → SLOTLIST) : Nat → Nat → List Nat
  | _head, 0 => []
  | head, fuel + 1 =>
    if head = NULL_IDX then [] else head :: chainFrom mem (mem head).nextIdx fuel

/-- A concrete all-zero pre-state used as the caller-supplied buffer contents
in the concrete evaluations below. -/
def zeroState : SwappableManager :=
  { m_arrayList := fun _ => { m_item := none, m_linkList := none },
    m_allocList := fun _ => { m_prev16 := 0, m_next16 := 0, m_prev8 := 0, m_next8 := 0 },
    m_freeSwappable := 0,
    m_totalSwappable := 0,
    m_usedIdxSwappable := 0,
    m_freeIdxSwappable := 0 }

/-- Structure `SwappableManager::SwappableInstance` — the link node embedded in each
`hotswap_ptr`: the cached target pointer (an owner-object identifier, `none`
for C `NULL`) and the intrusive next/prev pointers (instance addresses). -/
structure SwappableInstance where
  ptr : Option Nat
  next : Option Nat
  prev : Option Nat
deriving DecidableEq

/-- The `lx::Swappable` tracking member: owner back-pointer and assigned
handle (`m_mgr` is left implicit — the model has a single manager). -/
structure Swappable where
  m_owner : Nat
  m_handle : Nat
deriving DecidableEq

/-- The full mutable state the reference-side operations touch: the manager,
the `_trackMe` member of every owner object (indexed by owner identifier) and
the `SwappableInstance` heap (indexed by instance address). -/
structure World where
  mgr : SwappableManager
  owners : Nat → Swappable
  insts : Nat → SwappableInstance

/-- Function `SwappableManager::addListStart`. -/
def World.addListStart (w : World) (wrapper handle : Nat) : World :=
  let prevHead := (w.mgr.m_arrayList handle).m_linkList
  let insts1 :=
    match prevHead with
    | some ph => updF w.insts ph { w.insts ph with prev := some wrapper }
    | none => w.insts
  let insts2 := updF insts1 wrapper { insts1 wrapper with next := prevHead, prev := none }
  { w with
    insts := insts2,
    mgr := { w.mgr with
      m_arrayList := updF w.mgr.m_arrayList handle
        { w.mgr.m_arrayList handle with m_linkList := some wrapper } } }

/-- Function `SwappableManager::removeListStart`. -/
def World.removeListStart (w : World) (wrapper handle : Nat) : World :=
  { w with
    mgr := { w.mgr with
      m_arrayList := updF w.mgr.m_arrayList handle
        { w.mgr.m_arrayList handle with m_linkList := (w.insts wrapper).next } } }

/-- Function `Swappable::_SwappableReset`, invoked on the `_trackMe` member `self` of
the target object. -/
def World.SwappableReset (w : World) (self : Swappable) (wrapper : Nat) : World :=
  let wi := w.insts wrapper
  let w1 :=
    match wi.prev with
    | none => w.removeListStart wrapper self.m_handle
    | some p => { w with insts := updF w.insts p { w.insts p with next := wi.next } }
  match wi.next with
  | some nx => { w1 with insts := updF w1.insts nx { w1.insts nx with prev := wi.prev } }
  | none => w1

/-- Function `Swappable::_SwappableWrite`. -/
def World.SwappableWrite (w : World) (self : Swappable) (wrapper : Nat) : World :=
  w.addListStart wrapper self.m_handle

/-- Function `hotswap_ptr::update`, operating on the instance at address `r`. -/
def World.hotswapUpdate (w : World) (r : Nat) (p : Option Nat) : World :=
  let inst := w.insts r
  if p ≠ inst.ptr then
    let w1 :=
      match inst.ptr with
      | some o => w.SwappableReset (w.owners o) r
      | none => w
    let w2 := { w1 with insts := updF w1.insts r { w1.insts r with ptr := p } }
    match p with
    | some o => w2.SwappableWrite (w2.owners o) r
    | none => w2
  else
    w

/-- Destructor `hotswap_ptr::~hotswap_ptr`.  The source dereferences `instance.ptr`
unconditionally (`((T*)instance.ptr)->_trackMe._SwappableReset(&instance)`);
when the held target is C `NULL` this reads the `_trackMe` member through a
null pointer — undefined behaviour, modelled as `none`. -/
def World.hotswapDestroy (w : World) (r : Nat) : Option World :=
  match (w.insts r).ptr with
  | some o => some (w.SwappableReset (w.owners o) r)
  | none => none

/-- The `while (pInstance)` loop of `SwappableManager::replaceObject`: rewrite
the cached target pointer of each node of the chain to `v`, following `next`
links, bounded by `fuel`. -/
def patchLoop (insts : Nat → SwappableInstance) (cur : Option Nat) (v : Nat) :
    Nat → (Nat → SwappableInstance)
  | 0 => insts
  | fuel + 1 =>
    match cur with
    | none => insts
    | some a => patchLoop (updF insts a { insts a with ptr := some v }) ((insts a).next) v fuel

/-- Function `SwappableManager::replaceObject`.  After the pointer-rewrite loop the
source only contains `if (pPrev) { /* TODO */ }` and the comment
"Move the link list to new instance link list." with no code, so no link-list
structure is modified. -/

def World.replaceObject (w : World) (oldInstance newInstance : Swappable) (fuel : Nat) : World :=
  let handleOld := oldInstance.m_handle
  let pStart := (w.mgr.m_arrayList handleOld).m_linkList
  { w with insts := patchLoop w.insts pStart newInstance.m_owner fuel }

/-- Function `hotswap_ptr::hotSwapTo`, invoked on the instance at address `r` with
argument `obj` (an owner identifier, `none` for C `NULL`). -/
def World.hotSwapTo (w : World) (r : Nat) (obj : Option Nat) (fuel : Nat) : Bool × World :=
  match (w.insts r).ptr, obj with
  | some a, some o => (true, w.replaceObject (w.owners a) (w.owners o) fuel)
  | some _, none => (false, w)
  | none, _ => (false, w)

/-- Function `Swappable::registerObject`: `int handle = (int)m_mgr->allocateSwappable(tracker);
if (handle >= 0) tracker->m_handle = (unsigned int)handle;` — the cast to
`int` is negative exactly for values `≥ 2 ^ 31`, so the failure sentinel
`(unsigned int)-1` leaves `m_handle` untouched. -/
def Swappable.registerObject (st : SwappableManager) (trackerId : Nat) (tracker : Swappable) :
    SwappableManager × Swappable :=
  let res := st.allocateSwappable trackerId
  if res.1 < 2147483648 then (res.2, { tracker with m_handle := res.1 }) else (res.2, tracker)

/-- Function `Swappable::unregisterObject`: frees `tracker->m_handle` unconditionally. -/
def Swappable.unregisterObject (st : SwappableManager) (tracker : Swappable) : SwappableManager :=
  st.freeSwappable tracker.m_handle

/-- The `Swappable(void* obj, SwappableManager* mgr)` constructor:
`m_owner = obj; registerObject(this);`.  `garbageHandle` is the indeterminate
initial value of the uninitialised `m_handle` member, which survives when
registration fails. -/
def Swappable.construct (st : SwappableManager) (ownerId trackerId garbageHandle : Nat) :
    SwappableManager × Swappable :=
  Swappable.registerObject st trackerId { m_owner := ownerId, m_handle := garbageHandle }

/-- The `~Swappable()` destructor: `unregisterObject(this)`. -/
def Swappable.destruct (st : SwappableManager) (tracker : Swappable) : SwappableManager :=
  Swappable.unregisterObject st tracker

/-- Manager state after a successful `init` with capacity 1. -/
def st_cap1 : SwappableManager :=
  (zeroState.init (SwappableManager.getAllocSize 1) 1).2

/-- State `st_cap1` after one registration (handle 0): the pool is now full. -/
def st_cap1_a1 : SwappableManager := (st_cap1.allocateSwappable 101).2

/-- State `st_cap1_a1` after a second (over-capacity) registration. -/
def st_cap1_a2 : SwappableManager := (st_cap1_a1.allocateSwappable 102).2

/-- Manager state after a successful `init` with capacity 3. -/
def st_cap3 : SwappableManager :=
  (zeroState.init (SwappableManager.getAllocSize 3) 3).2

/-- Capacity 3: register twice (handles 0 then 1), then unregister handle 0.
All calls stay within capacity. -/
def st_c5 : SwappableManager :=
  (((st_cap3.allocateSwappable 201).2.allocateSwappable 202).2).freeSwappable 0

/-- A world with two registered targets — owner 1 (`_trackMe` handle 0) and
owner 2 (`_trackMe` handle 1) — and a single weak reference (instance address
0) pointing at owner 1, linked as the sole node of slot 0's reference list. -/
def w_c1 : World :=
  { mgr := { zeroState with
      m_arrayList := updF
        (updF (fun _ => { m_item := none, m_linkList := none }) 0
          { m_item := some 50, m_linkList := some 0 })
        1 { m_item := some 51, m_linkList := none } },
    owners := fun o =>
      if o = 1 then { m_owner := 1, m_handle := 0 }
      else if o = 2 then { m_owner := 2, m_handle := 1 }
      else { m_owner := 0, m_handle := 0 },
    insts := fun i =>
      if i = 0 then { ptr := some 1, next := none, prev := none }
      else { ptr := none, next := none, prev := none } }

/-- Predicate: `cur` heads a reference-list chain whose nodes are exactly `l`, in order,
terminated by a null `next`. -/
def isRefChain (insts : Nat → SwappableInstance) : Option Nat → List Nat → Prop
  | cur, [] => cur = none
  | cur, a :: rest => cur = some a ∧ isRefChain insts ((insts a).next) rest

/-- A segment of the packed doubly linked list: starting at index `head` the
listed indices follow `nextIdx`, each node's `prevIdx` names its predecessor
(`pv` for the first node), and the segment's last node's `nextIdx` is `stop`
(`head = stop` for the empty segment). -/
def usedChainSeg (mem : Nat → SLOTLIST) : Nat → Nat → List Nat → Nat → Prop
  | head, _pv, [], stop => head = stop
  | head, pv, a :: rest, stop =>
      head = a ∧ (mem a).prevIdx = pv ∧ usedChainSeg mem (mem a).nextIdx a rest stop

/-- The used list reachable from `head`: a doubly linked chain ending at the
null sentinel whose first node's `prevIdx` is `pv`. -/
def usedChainOK (mem : Nat → SLOTLIST) (head pv : Nat) (l : List Nat) : Prop :=
  usedChainSeg mem head pv l NULL_IDX

/-- A segment of the free list, followed through `nextIdx` only — the code
never maintains the prev parts of free nodes. -/
def freeChainSeg (mem : Nat → SLOTLIST) : Nat → List Nat → Nat → Prop
  | head, [], stop => head = stop
  | head, a :: rest, stop => head = a ∧ freeChainSeg mem (mem a).nextIdx rest stop

/-- The free list reachable from `head`, ending at the null sentinel. -/
def freeChainOK (mem : Nat → SLOTLIST) (head : Nat) (l : List Nat) : Prop :=
  freeChainSeg mem head l NULL_IDX

/-- The allocator invariant tying a manager state to the abstract contents of
its used and free lists.  The trailing `[maxCount]` of the free chain records
the out-of-range link node which initialization chains after slot
`maxCount - 1`. -/
structure MgrInv (maxCount : Nat) (st : SwappableManager) (used free : List Nat) : Prop where
  used_ok : usedChainOK st.m_allocList st.m_usedIdxSwappable NULL_IDX used
  free_ok : freeChainOK st.m_allocList st.m_freeIdxSwappable (free ++ [maxCount])
  used_lt : ∀ i ∈ used, i < maxCount
  free_lt : ∀ i ∈ free, i < maxCount
  nodup : (used ++ free).Nodup

/-- The link-node stores performed by a successful `allocateSwappable` popping
`oldFree` while the used-list head is `usedIdx`. -/
def allocMem (mem : Nat → SLOTLIST) (oldFree usedIdx : Nat) : Nat → SLOTLIST :=
  let mem1 := updF mem oldFree
    { (mem oldFree).withNext usedIdx with m_prev16 := NULL_IDX16, m_prev8 := NULL_IDX8 }
  if usedIdx ≠ NULL_IDX then updF mem1 usedIdx ((mem1 usedIdx).withPrev oldFree) else mem1

/-- The link-node stores performed by `freeSwappable(handle)` while the
free-list head is `freeIdx`. -/
def freeMem (mem : Nat → SLOTLIST) (handle freeIdx : Nat) : Nat → SLOTLIST :=
  let next := (mem handle).nextIdx
  let prev := (mem handle).prevIdx
  let mem1 := if next ≠ NULL_IDX then updF mem next ((mem next).withPrev prev) else mem
  let mem2 := if prev ≠ NULL_IDX then updF mem1 prev ((mem1 prev).withNext next) else mem1
  updF mem2 handle ((mem2 handle).withNext freeIdx)

/-- Well-formed register/unregister histories from a successful `init`: `used`
and `free` track the handles on the used and free lists; a registration
happens only while the pool still has a free slot ("within capacity") and
only currently registered handles are unregistered. -/
inductive Reached (maxCount : Nat) : SwappableManager → List Nat → List Nat → Prop where
  | base (st : SwappableManager) (bufferSize : Nat)
      (hsz : bufferSize ≥ SwappableManager.getAllocSize maxCount) :
      Reached maxCount (st.init bufferSize maxCount).2 [] (List.range maxCount)
  | reg (st : SwappableManager) (used : List Nat) (f0 : Nat) (ft : List Nat) (t : Nat)
      (hr : Reached maxCount st used (f0 :: ft)) :
      Reached maxCount (st.allocateSwappable t).2 (f0 :: used) ft
  | unreg (st : SwappableManager) (free : List Nat) (h : Nat) (l1 l2 : List Nat)
      (hr : Reached maxCount st (l1 ++ h :: l2) free) :
      Reached maxCount (st.freeSwappable h) (l1 ++ l2) (h :: free)

theorem updF_same {α : Type} (f : Nat → α) (i : Nat) (v : α) : updF f i v i = v := by
  simp [updF]

theorem updF_other {α : Type} (f : Nat → α) {i j : Nat} (v : α) (h : j ≠ i) :
    updF f i v j = f j := by
  simp [updF, h]

theorem lor_shl16 (lo hi : Nat) (h : lo < 65536) :
    lo ||| (hi <<< 16) = hi * 65536 + lo := by
  have h2 : lo < 2 ^ 16 := by omega
  have key := Nat.mul_add_lt_is_or (i := 16) h2 hi
  rw [Nat.shiftLeft_eq, Nat.lor_comm, Nat.mul_comm hi (2 ^ 16), ← key]

theorem withNext_nextIdx (e : SLOTLIST) (v : Nat) (h : v < 16777216) :
    (e.withNext v).nextIdx = v := by
  unfold SLOTLIST.withNext SLOTLIST.nextIdx
  simp only
  rw [lor_shl16 _ _ (Nat.mod_lt _ (by norm_num)), Nat.shiftRight_eq_div_pow]
  have h16 : (2 : Nat) ^ 16 = 65536 := by norm_num
  rw [h16]
  omega

theorem withPrev_prevIdx (e : SLOTLIST) (v : Nat) (h : v < 16777216) :
    (e.withPrev v).prevIdx = v := by
  unfold SLOTLIST.withPrev SLOTLIST.prevIdx
  simp only
  rw [lor_shl16 _ _ (Nat.mod_lt _ (by norm_num)), Nat.shiftRight_eq_div_pow]
  have h16 : (2 : Nat) ^ 16 = 65536 := by norm_num
  rw [h16]
  omega

theorem withNext_prevIdx (e : SLOTLIST) (v : Nat) : (e.withNext v).prevIdx = e.prevIdx := rfl

theorem withPrev_nextIdx (e : SLOTLIST) (v : Nat) : (e.withPrev v).nextIdx = e.nextIdx := rfl

theorem null_parts_nextIdx (e : SLOTLIST) (h16 : e.m_next16 = NULL_IDX16)
    (h8 : e.m_next8 = NULL_IDX8) : e.nextIdx = NULL_IDX := by
  unfold SLOTLIST.nextIdx
  rw [h16, h8]
  decide

theorem null_parts_prevIdx (e : SLOTLIST) (h16 : e.m_prev16 = NULL_IDX16)
    (h8 : e.m_prev8 = NULL_IDX8) : e.prevIdx = NULL_IDX := by
  unfold SLOTLIST.prevIdx
  rw [h16, h8]
  decide

theorem initPrev16_zero : initPrev16 0 = 65535 := by decide

theorem initPrev8_zero : initPrev8 0 = 255 := by decide

theorem initPrev16_succ (n : Nat) : initPrev16 (n + 1) = n % 65536 := by
  unfold initPrev16
  omega

theorem initPrev8_succ (n : Nat) : initPrev8 (n + 1) = (n / 65536) % 256 := by
  unfold initPrev8
  omega

/-- C1.  On the concrete failing input `w_c1` (target owner 1 has one live
weak reference, instance 0), `replaceObject` rewrites the reference's cached
target pointer to owner 2 but — the splice after the `TODO` being absent —
leaves the old target's reference list non-empty and adds nothing to the new
target's list, contradicting the claimed contract. -/
theorem c1_replaceObject_does_not_move_list :
    ((w_c1.replaceObject (w_c1.owners 1) (w_c1.owners 2) 4).insts 0).ptr = some 2 ∧
    ((w_c1.replaceObject (w_c1.owners 1) (w_c1.owners 2) 4).mgr.m_arrayList 0).m_linkList
      = some 0 ∧
    ((w_c1.replaceObject (w_c1.owners 1) (w_c1.owners 2) 4).mgr.m_arrayList 1).m_linkList
      = none := by
  decide

/-- C2.  For capacity 2 a successful `init` leaves the last in-range slot
(index 1) chaining to index 2 — not to the null sentinel as claimed; the
sentinel is instead written one slot past the allocated range. -/
theorem c2_init_last_slot_next_not_sentinel :
    (zeroState.init (SwappableManager.getAllocSize 2) 2).1 = true ∧
    ((zeroState.init (SwappableManager.getAllocSize 2) 2).2.m_allocList 1).nextIdx = 2 ∧
    (2 : Nat) ≠ NULL_IDX ∧
    ((zeroState.init (SwappableManager.getAllocSize 2) 2).2.m_allocList 2).nextIdx = NULL_IDX := by
  decide

/-- C3.  For capacity 1 a successful `init` modifies the link node at index 1
= `maxCount`, which lies entirely outside the `requiredBufferSize(1)` bytes
supplied by the caller. -/
theorem c3_init_writes_past_buffer :
    (zeroState.init (SwappableManager.getAllocSize 1) 1).1 = true ∧
    (zeroState.init (SwappableManager.getAllocSize 1) 1).2.m_allocList 1
      ≠ zeroState.m_allocList 1 := by
  decide

/-- C4.  Immediately after a successful `init` with capacity 1 (the empty
sequence of register/unregister calls) the chain reachable from the free-list
head already contains two indices, `[0, 1]` — index 1 = `maxCount` is not a
slot — while the used list is empty, so the two chains do not together contain
exactly `maxCount = 1` slots. -/
theorem c4_partition_violated_at_init :
    chainFrom st_cap1.m_allocList st_cap1.m_freeIdxSwappable 5 = [0, 1] ∧
    st_cap1.m_usedIdxSwappable = NULL_IDX := by
  decide

/-- C6.  Capacity 1: the first registration returns handle 0 and the pool is
full (`m_freeSwappable = 0`), yet the second `allocateSwappable` does not
return the failure sentinel `4294967295` — it returns the out-of-range handle
1, moves the used-list head to 1 and wraps the free count to `2^32 - 1`. -/
theorem c6_register_when_full_succeeds :
    (st_cap1.allocateSwappable 101).1 = 0 ∧
    st_cap1_a1.m_freeSwappable = 0 ∧
    (st_cap1_a1.allocateSwappable 102).1 = 1 ∧
    (st_cap1_a1.allocateSwappable 102).1 ≠ 4294967295 ∧
    (st_cap1_a1.allocateSwappable 102).2.m_usedIdxSwappable = 1 ∧
    (st_cap1_a1.allocateSwappable 102).2.m_freeSwappable = 4294967295 := by
  decide

/-- C9.  Destroying a weak reference whose target is null (a
default-constructed `hotswap_ptr`, as the bundled `test.cpp` leaves
`g_helloSwappable` before `main` returns) dereferences the null target
pointer: the model records the undefined behaviour as `none` instead of the
claimed no-op. -/
theorem c9_destroy_null_target_is_undefined :
    World.hotswapDestroy
      { mgr := zeroState,
        owners := fun _ => { m_owner := 0, m_handle := 0 },
        insts := fun _ => { ptr := none, next := none, prev := none } } 0 = none := rfl

/-- C10.  In `st_cap1_a2` the free list is exhausted (`head = NULL_IDX`), so
constructing a marker fails and keeps the garbage `m_handle` (here 0); its
destructor nevertheless calls `freeSwappable` with that garbage handle,
pushing slot 0 — still owned by a live registration — onto the free list (head
changes from the null sentinel to 0) and rewriting the next parts of link node
1 (from 0 to the sentinel). -/
theorem c10_failed_marker_destruction_mutates :
    st_cap1_a2.m_freeIdxSwappable = NULL_IDX ∧
    (Swappable.construct st_cap1_a2 7 103 0).2.m_handle = 0 ∧
    (Swappable.construct st_cap1_a2 7 103 0).1.m_freeIdxSwappable = NULL_IDX ∧
    ((Swappable.construct st_cap1_a2 7 103 0).1.m_allocList 1).nextIdx = 0 ∧
    (Swappable.destruct (Swappable.construct st_cap1_a2 7 103 0).1
      (Swappable.construct st_cap1_a2 7 103 0).2).m_freeIdxSwappable = 0 ∧
    ((Swappable.destruct (Swappable.construct st_cap1_a2 7 103 0).1
      (Swappable.construct st_cap1_a2 7 103 0).2).m_allocList 1).nextIdx = NULL_IDX := by
  decide

/-- C5 counterexample.  `st_c5` is reached from a successfully initialized
capacity-3 manager by registrations and one unregistration, all within
capacity; its free-list head is 0, a valid index, but that node's prev is 1 —
not the null sentinel — because `freeSwappable` never writes the prev parts of
the node it pushes onto the free list. -/
theorem c5_counterexample :
    ¬ (st_c5.m_freeIdxSwappable = NULL_IDX ∨
       (st_c5.m_freeIdxSwappable < 3 ∧
        (st_c5.m_allocList st_c5.m_freeIdxSwappable).prevIdx = NULL_IDX)) := by
  decide

/-- C7 counterexample.  On `w_c1` (current target owner 1 non-null with one
reference, replacement owner 2 non-null) `hotSwapTo` returns `true`, yet the
old target's reference list is not redirected away — node 0 is still its head
— so the claimed full-list redirection does not take place. -/
theorem c7_counterexample :
    (w_c1.hotSwapTo 0 (some 2) 4).1 = true ∧
    ((w_c1.hotSwapTo 0 (some 2) 4).2.mgr.m_arrayList 0).m_linkList = some 0 := by
  decide

/-- C8: assigning a weak reference the target it already holds is a no-op —
`hotswap_ptr::update` compares the new pointer with the cached one and returns
without touching the instance, the target's reference list or any link
pointer. -/
theorem c8_update_same_target (w : World) (r p : Nat) (h : (w.insts r).ptr = some p) :
    w.hotswapUpdate r (some p) = w := by
  unfold World.hotswapUpdate
  simp [h]

/-- Witness for `c8_update_same_target` at the concrete state `w_c1`. -/
theorem c8_witness :
    (w_c1.insts 0).ptr = some 1 ∧ w_c1.hotswapUpdate 0 (some 1) = w_c1 :=
  ⟨by decide, c8_update_same_target w_c1 0 1 (by decide)⟩

theorem isRefChain_frame (insts insts2 : Nat → SwappableInstance)
    (hnext : ∀ x, (insts2 x).next = (insts x).next) :
    ∀ (l : List Nat) (cur : Option Nat), isRefChain insts cur l → isRefChain insts2 cur l := by
  intro l
  induction l with
  | nil => intro cur hc; exact hc
  | cons a rest ih =>
    intro cur hc
    refine ⟨hc.1, ?_⟩
    rw [hnext]
    exact ih _ hc.2

/-- The pointer-rewrite loop of `replaceObject` patches exactly the nodes of
the chain, changing nothing but their cached target pointer. -/
theorem patchLoop_eq (v : Nat) :
    ∀ (l : List Nat) (insts : Nat → SwappableInstance) (cur : Option Nat) (fuel : Nat),
      isRefChain insts cur l → l.length ≤ fuel →
      patchLoop insts cur v fuel =
        fun x => if x ∈ l then { insts x with ptr := some v } else insts x := by
  intro l
  induction l with
  | nil =>
    intro insts cur fuel hc _hf
    have hcur : cur = none := hc
    subst hcur
    funext x
    cases fuel with
    | zero => simp [patchLoop]
    | succ f => simp [patchLoop]
  | cons a rest ih =>
    intro insts cur fuel hc hf
    obtain ⟨hcur, hrest⟩ := hc
    subst hcur
    cases fuel with
    | zero => simp at hf
    | succ f =>
      have hstep : patchLoop insts (some a) v (f + 1) =
          patchLoop (updF insts a { insts a with ptr := some v }) ((insts a).next) v f := rfl
      rw [hstep]
      have hrest2 : isRefChain (updF insts a { insts a with ptr := some v })
          ((insts a).next) rest := by
        refine isRefChain_frame insts _ ?_ rest _ hrest
        intro x
        unfold updF
        by_cases hx : x = a
        · subst hx; simp
        · simp [hx]
      rw [ih _ _ f hrest2 (by simpa using hf)]
      funext x
      by_cases hx : x ∈ rest
      · have hx2 : x ∈ a :: rest := List.mem_cons_of_mem _ hx
        by_cases hxa : x = a
        · subst hxa; simp [hx, hx2, updF]
        · simp [hx, hx2, updF, hxa]
      · by_cases hxa : x = a
        · subst hxa; simp [hx, updF]
        · have hx2 : x ∉ a :: rest := by simp [hxa, hx]
          simp [hx, hx2, updF, hxa]

/-- C7 (amended): `hotSwapTo(obj)` returns `false` and performs no mutation
exactly when the reference's current target is null or `obj` is null —
registration status is never checked; otherwise it returns `true` after
rewriting the cached target pointer of every node of the current target's
reference list to `obj`'s owner, leaving the manager's slot table (in
particular both targets' reference-list heads), all owners, all link pointers
and all other instances unchanged — no structural splice takes place. -/
theorem c7_amended_characterization (w : World) (r : Nat) (obj : Option Nat) (fuel : Nat) :
    (((w.insts r).ptr = none ∨ obj = none) → w.hotSwapTo r obj fuel = (false, w)) ∧
    (∀ a o l, (w.insts r).ptr = some a → obj = some o →
      isRefChain w.insts ((w.mgr.m_arrayList ((w.owners a).m_handle)).m_linkList) l →
      l.length ≤ fuel →
      (w.hotSwapTo r obj fuel).1 = true ∧
      (w.hotSwapTo r obj fuel).2.mgr = w.mgr ∧
      (w.hotSwapTo r obj fuel).2.owners = w.owners ∧
      (∀ x ∈ l, ((w.hotSwapTo r obj fuel).2.insts x).ptr = some ((w.owners o).m_owner)) ∧
      (∀ x, ((w.hotSwapTo r obj fuel).2.insts x).next = (w.insts x).next ∧
            ((w.hotSwapTo r obj fuel).2.insts x).prev = (w.insts x).prev) ∧
      (∀ x, x ∉ l → (w.hotSwapTo r obj fuel).2.insts x = w.insts x)) := by
  constructor
  · intro h
    rcases h with h | h
    · simp [World.hotSwapTo, h]
    · subst h
      unfold World.hotSwapTo
      cases hp : (w.insts r).ptr with
      | none => rfl
      | some a => rfl
  · intro a o l hpa hpo hchain hlen
    subst hpo
    have hred : w.hotSwapTo r (some o) fuel =
        (true, w.replaceObject (w.owners a) (w.owners o) fuel) := by
      unfold World.hotSwapTo
      rw [hpa]
    rw [hred]
    unfold World.replaceObject
    simp only
    rw [patchLoop_eq _ l w.insts _ fuel hchain hlen]
    refine ⟨trivial, trivial, trivial, ?_, ?_, ?_⟩
    · intro x hx
      simp [hx]
    · intro x
      by_cases hx : x ∈ l
      · simp [hx]
      · simp [hx]
    · intro x hx
      simp [hx]

/-- Witness for `c7_amended_characterization` at the concrete world `w_c1`:
one reference (instance 0) on target owner 1, redirected to owner 2. -/
theorem c7_amended_witness :
    (w_c1.hotSwapTo 0 (some 2) 4).1 = true ∧
    ((w_c1.hotSwapTo 0 (some 2) 4).2.insts 0).ptr = some 2 := by
  have h := (c7_amended_characterization w_c1 0 (some 2) 4).2 1 2 [0]
    rfl rfl ⟨rfl, rfl⟩ (by norm_num)
  exact ⟨h.1, h.2.2.2.1 0 (by simp)⟩

theorem usedChainSeg_frame (mem mem2 : Nat → SLOTLIST) :
    ∀ (l : List Nat), (∀ a ∈ l, mem2 a = mem a) →
      ∀ head pv stop, usedChainSeg mem head pv l stop → usedChainSeg mem2 head pv l stop := by
  intro l
  induction l with
  | nil => intro _ head pv stop h; exact h
  | cons a rest ih =>
    intro hsame head pv stop h
    obtain ⟨h1, h2, h3⟩ := h
    have ha : mem2 a = mem a := hsame a (by simp)
    refine ⟨h1, by rw [ha]; exact h2, ?_⟩
    rw [ha]
    exact ih (fun x hx => hsame x (by simp [hx])) _ _ _ h3

theorem freeChainSeg_frame (mem mem2 : Nat → SLOTLIST) :
    ∀ (l : List Nat), (∀ a ∈ l, mem2 a = mem a) →
      ∀ head stop, freeChainSeg mem head l stop → freeChainSeg mem2 head l stop := by
  intro l
  induction l with
  | nil => intro _ head stop h; exact h
  | cons a rest ih =>
    intro hsame head stop h
    obtain ⟨h1, h2⟩ := h
    have ha : mem2 a = mem a := hsame a (by simp)
    refine ⟨h1, ?_⟩
    rw [ha]
    exact ih (fun x hx => hsame x (by simp [hx])) _ _ h2

theorem usedChainSeg_append (mem : Nat → SLOTLIST) :
    ∀ (l1 l2 : List Nat) (head pv stop : Nat),
      usedChainSeg mem head pv (l1 ++ l2) stop ↔
        (usedChainSeg mem head pv l1 (l2.headD stop) ∧
         usedChainSeg mem (l2.headD stop) (l1.getLastD pv) l2 stop) := by
  intro l1
  induction l1 with
  | nil =>
    intro l2 head pv stop
    cases l2 with
    | nil =>
      simp only [List.nil_append, List.headD_nil, List.getLastD_nil]
      show (head = stop) ↔ (head = stop ∧ (stop = stop))
      tauto
    | cons b r =>
      simp only [List.nil_append, List.headD_cons, List.getLastD_nil]
      show (head = b ∧ (mem b).prevIdx = pv ∧ usedChainSeg mem (mem b).nextIdx b r stop) ↔
        ((head = b) ∧
         (b = b ∧ (mem b).prevIdx = pv ∧ usedChainSeg mem (mem b).nextIdx b r stop))
      tauto
  | cons a l1' ih =>
    intro l2 head pv stop
    simp only [List.cons_append, List.getLastD_cons]
    show (head = a ∧ (mem a).prevIdx = pv ∧
            usedChainSeg mem (mem a).nextIdx a (l1' ++ l2) stop) ↔ _
    rw [ih l2]
    show _ ↔ ((head = a ∧ (mem a).prevIdx = pv ∧
            usedChainSeg mem (mem a).nextIdx a l1' (l2.headD stop)) ∧
         usedChainSeg mem (l2.headD stop) (l1'.getLastD a) l2 stop)
    tauto

theorem initLoop_ge (mem : Nat → SLOTLIST) :
    ∀ k j, k ≤ j → initLoop mem k j = mem j := by
  intro k
  induction k with
  | zero => intro j _; rfl
  | succ k ih =>
    intro j hj
    show updF (initLoop mem k) k (initSlot k) j = mem j
    rw [updF_other _ _ (by omega)]
    exact ih j (by omega)

theorem initLoop_lt (mem : Nat → SLOTLIST) :
    ∀ k j, j < k → initLoop mem k j = initSlot j := by
  intro k
  induction k with
  | zero => intro j hj; omega
  | succ k ih =>
    intro j hj
    show updF (initLoop mem k) k (initSlot k) j = initSlot j
    by_cases h : j = k
    · subst h; rw [updF_same]
    · rw [updF_other _ _ h]
      exact ih j (by omega)

theorem initSlot_nextIdx (n : Nat) (h : n + 1 < 16777216) : (initSlot n).nextIdx = n + 1 := by
  unfold initSlot SLOTLIST.nextIdx
  simp only
  rw [lor_shl16 _ _ (Nat.mod_lt _ (by norm_num)), Nat.shiftRight_eq_div_pow]
  have h16 : (2 : Nat) ^ 16 = 65536 := by norm_num
  rw [h16]
  omega

theorem initMem_lt (mem : Nat → SLOTLIST) (maxCount j : Nat) (hj : j < maxCount) :
    initMem mem maxCount j = initSlot j := by
  unfold initMem
  rw [updF_other _ _ (by omega)]
  exact initLoop_lt mem maxCount j hj

theorem initMem_at_nextIdx (mem : Nat → SLOTLIST) (maxCount : Nat) :
    (initMem mem maxCount maxCount).nextIdx = NULL_IDX := by
  unfold initMem
  rw [updF_same]
  exact null_parts_nextIdx _ rfl rfl

/-- The free chain built by `init`: from any index `j ≤ maxCount` the links
run `j, j+1, …, maxCount-1, maxCount` and stop at the sentinel. -/
theorem initMem_chain (mem : Nat → SLOTLIST) (maxCount : Nat) (hmax : maxCount < NULL_IDX) :
    ∀ n j, j + n = maxCount →
      freeChainSeg (initMem mem maxCount) j (List.range' j n ++ [maxCount]) NULL_IDX := by
  intro n
  induction n with
  | zero =>
    intro j hj
    have hj2 : j = maxCount := by omega
    rw [hj2]
    exact ⟨rfl, initMem_at_nextIdx mem maxCount⟩
  | succ n ih =>
    intro j hj
    rw [List.range'_succ]
    refine ⟨rfl, ?_⟩
    have hlt : j < maxCount := by omega
    rw [initMem_lt mem maxCount j hlt]
    rw [initSlot_nextIdx j (by unfold NULL_IDX at hmax; omega)]
    exact ih (j + 1) (by omega)

theorem mgrInv_init (maxCount : Nat) (hmax : maxCount < NULL_IDX)
    (st : SwappableManager) (bufferSize : Nat)
    (hsz : bufferSize ≥ SwappableManager.getAllocSize maxCount) :
    MgrInv maxCount (st.init bufferSize maxCount).2 [] (List.range maxCount) := by
  have hred : (st.init bufferSize maxCount).2 = { st with
      m_allocList := initMem st.m_allocList maxCount,
      m_freeSwappable := maxCount,
      m_totalSwappable := maxCount,
      m_usedIdxSwappable := NULL_IDX,
      m_freeIdxSwappable := 0 } := by
    unfold SwappableManager.init
    rw [if_pos hsz]
  rw [hred]
  refine ⟨rfl, ?_, ?_, ?_, ?_⟩
  · show freeChainSeg (initMem st.m_allocList maxCount) 0 (List.range maxCount ++ [maxCount])
      NULL_IDX
    rw [List.range_eq_range']
    exact initMem_chain st.m_allocList maxCount hmax maxCount 0 (by omega)
  · intro i hi
    simp at hi
  · intro i hi
    exact List.mem_range.mp hi
  · simpa using List.nodup_range maxCount

theorem alloc_success_eq (st : SwappableManager) (t : Nat)
    (hne : st.m_freeIdxSwappable ≠ NULL_IDX) :
    st.allocateSwappable t = (st.m_freeIdxSwappable, { st with
      m_allocList := allocMem st.m_allocList st.m_freeIdxSwappable st.m_usedIdxSwappable,
      m_arrayList := updF st.m_arrayList st.m_freeIdxSwappable
        { m_item := some t, m_linkList := none },
      m_usedIdxSwappable := st.m_freeIdxSwappable,
      m_freeIdxSwappable := (st.m_allocList st.m_freeIdxSwappable).nextIdx,
      m_freeSwappable := (st.m_freeSwappable + 4294967295) % 4294967296 }) := by
  unfold SwappableManager.allocateSwappable allocMem
  rw [if_pos hne]

theorem MgrInv.of_fields (maxCount : Nat) (st : SwappableManager) (used free : List Nat)
    (mem : Nat → SLOTLIST) (ui fi : Nat)
    (hmem : st.m_allocList = mem) (hui : st.m_usedIdxSwappable = ui)
    (hfi : st.m_freeIdxSwappable = fi)
    (used_ok : usedChainSeg mem ui NULL_IDX used NULL_IDX)
    (free_ok : freeChainSeg mem fi (free ++ [maxCount]) NULL_IDX)
    (used_lt : ∀ i ∈ used, i < maxCount)
    (free_lt : ∀ i ∈ free, i < maxCount)
    (nodup : (used ++ free).Nodup) : MgrInv maxCount st used free := by
  refine ⟨?_, ?_, used_lt, free_lt, nodup⟩
  · show usedChainSeg st.m_allocList st.m_usedIdxSwappable NULL_IDX used NULL_IDX
    rw [hmem, hui]
    exact used_ok
  · show freeChainSeg st.m_allocList st.m_freeIdxSwappable (free ++ [maxCount]) NULL_IDX
    rw [hmem, hfi]
    exact free_ok

theorem MgrInv.alloc (maxCount : Nat) (hmax : maxCount < NULL_IDX)
    (st : SwappableManager) (used : List Nat) (f0 : Nat) (ft : List Nat)
    (inv : MgrInv maxCount st used (f0 :: ft)) (t : Nat) :
    MgrInv maxCount (st.allocateSwappable t).2 (f0 :: used) ft := by
  have hf0lt : f0 < maxCount := inv.free_lt f0 (by simp)
  have hnullbig : NULL_IDX < 16777216 := by decide
  have hf0big : f0 < 16777216 := by omega
  have hf0ne : f0 ≠ NULL_IDX := Nat.ne_of_lt (Nat.lt_trans hf0lt hmax)
  have hfchain : freeChainSeg st.m_allocList st.m_freeIdxSwappable
      (f0 :: (ft ++ [maxCount])) NULL_IDX := inv.free_ok
  have hhead : st.m_freeIdxSwappable = f0 := hfchain.1
  have htail : freeChainSeg st.m_allocList (st.m_allocList f0).nextIdx (ft ++ [maxCount])
      NULL_IDX := hfchain.2
  have hne : st.m_freeIdxSwappable ≠ NULL_IDX := by rw [hhead]; exact hf0ne
  have hnod := inv.nodup
  have hsplitn := List.nodup_append.mp hnod
  have hFreeNodup : (f0 :: ft).Nodup := hsplitn.2.1
  have hDisj : used.Disjoint (f0 :: ft) := hsplitn.2.2
  have hf0used : f0 ∉ used := fun hc => hDisj hc (by simp)
  have hftf0 : f0 ∉ ft := (List.nodup_cons.mp hFreeNodup).1
  have hmemft : ∀ x, x ∈ ft ++ [maxCount] → x ≠ f0 := by
    intro x hx
    rcases List.mem_append.mp hx with hx | hx
    · intro he; exact hftf0 (he ▸ hx)
    · intro he
      have : x = maxCount := by simpa using hx
      omega
  have hst2 := alloc_success_eq st t hne
  cases used with
  | nil =>
    have hu : st.m_usedIdxSwappable = NULL_IDX := inv.used_ok
    have hM : allocMem st.m_allocList f0 NULL_IDX = updF st.m_allocList f0
        { (st.m_allocList f0).withNext NULL_IDX with
          m_prev16 := NULL_IDX16, m_prev8 := NULL_IDX8 } := by
      unfold allocMem
      rw [if_neg (by simp)]
    refine MgrInv.of_fields maxCount _ [f0] ft (allocMem st.m_allocList f0 NULL_IDX)
      f0 ((st.m_allocList f0).nextIdx)
      (by rw [hst2, hhead, hu]) (by rw [hst2, hhead]) (by rw [hst2, hhead])
      ?_ ?_ ?_ ?_ ?_
    · refine ⟨rfl, ?_, ?_⟩
      · rw [hM, updF_same]
        exact null_parts_prevIdx _ rfl rfl
      · show SLOTLIST.nextIdx _ = NULL_IDX
        rw [hM, updF_same]
        exact withNext_nextIdx (st.m_allocList f0) NULL_IDX (by decide)
    · refine freeChainSeg_frame st.m_allocList _ _ ?_ _ _ htail
      intro x hx
      rw [hM, updF_other _ _ (hmemft x hx)]
    · intro i hi
      have : i = f0 := by simpa using hi
      omega
    · intro i hi
      exact inv.free_lt i (List.mem_cons_of_mem _ hi)
    · exact hFreeNodup
  | cons u0 urest =>
    have hused := inv.used_ok
    have hu : st.m_usedIdxSwappable = u0 := hused.1
    have hchainrest : usedChainSeg st.m_allocList (st.m_allocList u0).nextIdx u0 urest
        NULL_IDX := hused.2.2
    have hu0lt : u0 < maxCount := inv.used_lt u0 (by simp)
    have hu0big : u0 < 16777216 := by omega
    have hu0ne : u0 ≠ NULL_IDX := Nat.ne_of_lt (Nat.lt_trans hu0lt hmax)
    have hu0f0 : u0 ≠ f0 := fun he => hf0used (he ▸ List.mem_cons_self u0 urest)
    have hf0u0 : f0 ≠ u0 := fun he => hu0f0 he.symm
    have hUsedNodup : (u0 :: urest).Nodup := hsplitn.1
    have hu0urest : u0 ∉ urest := (List.nodup_cons.mp hUsedNodup).1
    have hM : allocMem st.m_allocList f0 u0 =
        updF (updF st.m_allocList f0
          { (st.m_allocList f0).withNext u0 with
            m_prev16 := NULL_IDX16, m_prev8 := NULL_IDX8 }) u0
          (((updF st.m_allocList f0
            { (st.m_allocList f0).withNext u0 with
              m_prev16 := NULL_IDX16, m_prev8 := NULL_IDX8 }) u0).withPrev f0) := by
      unfold allocMem
      rw [if_pos hu0ne]
    have hMf0 : allocMem st.m_allocList f0 u0 f0 =
        { (st.m_allocList f0).withNext u0 with
          m_prev16 := NULL_IDX16, m_prev8 := NULL_IDX8 } := by
      rw [hM, updF_other _ _ hf0u0, updF_same]
    have hMu0 : allocMem st.m_allocList f0 u0 u0 = (st.m_allocList u0).withPrev f0 := by
      rw [hM, updF_same, updF_other _ _ hu0f0]
    have hMother : ∀ x, x ≠ f0 → x ≠ u0 →
        allocMem st.m_allocList f0 u0 x = st.m_allocList x := by
      intro x hx1 hx2
      rw [hM, updF_other _ _ hx2, updF_other _ _ hx1]
    refine MgrInv.of_fields maxCount _ (f0 :: u0 :: urest) ft (allocMem st.m_allocList f0 u0)
      f0 ((st.m_allocList f0).nextIdx)
      (by rw [hst2, hhead, hu]) (by rw [hst2, hhead]) (by rw [hst2, hhead])
      ?_ ?_ ?_ ?_ ?_
    · refine ⟨rfl, ?_, ?_⟩
      · rw [hMf0]
        exact null_parts_prevIdx _ rfl rfl
      · show usedChainSeg _ (SLOTLIST.nextIdx _) f0 (u0 :: urest) NULL_IDX
        rw [hMf0]
        have hnx : SLOTLIST.nextIdx { (st.m_allocList f0).withNext u0 with
            m_prev16 := NULL_IDX16, m_prev8 := NULL_IDX8 } = u0 :=
          withNext_nextIdx (st.m_allocList f0) u0 hu0big
        rw [hnx]
        refine ⟨rfl, ?_, ?_⟩
        · rw [hMu0]
          exact withPrev_prevIdx _ _ hf0big
        · show usedChainSeg _ (SLOTLIST.nextIdx _) u0 urest NULL_IDX
          rw [hMu0, withPrev_nextIdx]
          refine usedChainSeg_frame st.m_allocList _ _ ?_ _ _ _ hchainrest
          intro x hx
          have hx1 : x ≠ f0 := fun he => hf0used (he ▸ List.mem_cons_of_mem _ hx)
          have hx2 : x ≠ u0 := fun he => hu0urest (he ▸ hx)
          exact hMother x hx1 hx2
    · refine freeChainSeg_frame st.m_allocList _ _ ?_ _ _ htail
      intro x hx
      have hx1 : x ≠ f0 := hmemft x hx
      have hx2 : x ≠ u0 := by
        rcases List.mem_append.mp hx with hxx | hxx
        · intro he
          exact hDisj (he ▸ List.mem_cons_self u0 urest) (List.mem_cons_of_mem _ hxx)
        · intro he
          have : x = maxCount := by simpa using hxx
          omega
      exact hMother x hx1 hx2
    · intro i hi
      rcases List.mem_cons.mp hi with hi | hi
      · omega
      · exact inv.used_lt i hi
    · intro i hi
      exact inv.free_lt i (List.mem_cons_of_mem _ hi)
    · exact (List.perm_middle).nodup hnod

theorem free_eq (st : SwappableManager) (h : Nat) :
    st.freeSwappable h = { st with
      m_allocList := freeMem st.m_allocList h st.m_freeIdxSwappable,
      m_usedIdxSwappable :=
        if (st.m_allocList h).prevIdx ≠ NULL_IDX then st.m_usedIdxSwappable
        else (st.m_allocList h).nextIdx,
      m_freeIdxSwappable := h,
      m_freeSwappable := (st.m_freeSwappable + 1) % 4294967296 } := rfl

theorem freeMem_at_handle_nextIdx (mem : Nat → SLOTLIST) (handle freeIdx : Nat)
    (hf : freeIdx < 16777216) :
    (freeMem mem handle freeIdx handle).nextIdx = freeIdx := by
  simp only [freeMem]
  rw [updF_same]
  exact withNext_nextIdx _ _ hf

theorem freeMem_other (mem : Nat → SLOTLIST) (handle freeIdx x : Nat)
    (hx1 : x ≠ handle) (hx2 : x ≠ (mem handle).nextIdx) (hx3 : x ≠ (mem handle).prevIdx) :
    freeMem mem handle freeIdx x = mem x := by
  simp only [freeMem]
  rw [updF_other _ _ hx1]
  by_cases hp : (mem handle).prevIdx ≠ NULL_IDX
  · rw [if_pos hp, updF_other _ _ hx3]
    by_cases hn : (mem handle).nextIdx ≠ NULL_IDX
    · rw [if_pos hn, updF_other _ _ hx2]
    · rw [if_neg hn]
  · rw [if_neg hp]
    by_cases hn : (mem handle).nextIdx ≠ NULL_IDX
    · rw [if_pos hn, updF_other _ _ hx2]
    · rw [if_neg hn]

theorem MgrInv.free (maxCount : Nat) (hmax : maxCount < NULL_IDX)
    (st : SwappableManager) (free : List Nat) (h : Nat) (l1 l2 : List Nat)
    (inv : MgrInv maxCount st (l1 ++ h :: l2) free) :
    MgrInv maxCount (st.freeSwappable h) (l1 ++ l2) (h :: free) := by
  have hnullbig : NULL_IDX < 16777216 := by decide
  have hhlt : h < maxCount := inv.used_lt h (by simp)
  have hnod := inv.nodup
  have hsp1 := List.nodup_append.mp hnod
  have hUN : (l1 ++ h :: l2).Nodup := hsp1.1
  have hFN : free.Nodup := hsp1.2.1
  have hDisjUF : (l1 ++ h :: l2).Disjoint free := hsp1.2.2
  have hsp2 := List.nodup_append.mp hUN
  have hl1N : l1.Nodup := hsp2.1
  have hhl2N : (h :: l2).Nodup := hsp2.2.1
  have hDisj12 : l1.Disjoint (h :: l2) := hsp2.2.2
  have hhl2 : h ∉ l2 := (List.nodup_cons.mp hhl2N).1
  have hl2N : l2.Nodup := (List.nodup_cons.mp hhl2N).2
  have hhl1 : h ∉ l1 := fun hc => hDisj12 hc (by simp)
  have hUC := inv.used_ok
  have hdec := (usedChainSeg_append st.m_allocList l1 (h :: l2)
      st.m_usedIdxSwappable NULL_IDX NULL_IDX).mp hUC
  have hpre : usedChainSeg st.m_allocList st.m_usedIdxSwappable NULL_IDX l1 h := hdec.1
  have hsuf : usedChainSeg st.m_allocList h (l1.getLastD NULL_IDX) (h :: l2) NULL_IDX :=
    hdec.2
  have hprevh : (st.m_allocList h).prevIdx = l1.getLastD NULL_IDX := hsuf.2.1
  have hl2chain : usedChainSeg st.m_allocList (st.m_allocList h).nextIdx h l2 NULL_IDX :=
    hsuf.2.2
  have hFC := inv.free_ok
  have hfidx : st.m_freeIdxSwappable < 16777216 := by
    cases free with
    | nil =>
      have h1 : st.m_freeIdxSwappable = maxCount := hFC.1
      omega
    | cons g gt =>
      have h1 : st.m_freeIdxSwappable = g := hFC.1
      have h2 := inv.free_lt g (by simp)
      omega
  have hfree_not_used : ∀ x, x ∈ free ++ [maxCount] → ∀ y, y ∈ l1 ++ h :: l2 → x ≠ y := by
    intro x hx y hy he
    subst he
    rcases List.mem_append.mp hx with hx | hx
    · exact hDisjUF hy hx
    · have hxm : x = maxCount := by simpa using hx
      have := inv.used_lt x hy
      omega
  have hfree_x_lt : ∀ x, x ∈ free ++ [maxCount] → x < NULL_IDX := by
    intro x hx
    rcases List.mem_append.mp hx with hx | hx
    · have := inv.free_lt x hx
      omega
    · have : x = maxCount := by simpa using hx
      omega
  have hnext_cases : (st.m_allocList h).nextIdx = NULL_IDX ∨
      (st.m_allocList h).nextIdx ∈ l1 ++ h :: l2 := by
    cases l2 with
    | nil => left; exact hl2chain
    | cons b l2t =>
      right
      rw [hl2chain.1]
      simp
  have hprev_cases : (st.m_allocList h).prevIdx = NULL_IDX ∨
      (st.m_allocList h).prevIdx ∈ l1 ++ h :: l2 := by
    rcases List.eq_nil_or_concat l1 with he | ⟨l1p, k, he⟩
    · left
      rw [hprevh, he]
      rfl
    · rw [List.concat_eq_append] at he
      right
      rw [hprevh, he, List.getLastD_concat]
      simp
  refine MgrInv.of_fields maxCount _ (l1 ++ l2) (h :: free)
    (freeMem st.m_allocList h st.m_freeIdxSwappable)
    (if (st.m_allocList h).prevIdx ≠ NULL_IDX then st.m_usedIdxSwappable
      else (st.m_allocList h).nextIdx)
    h (by rw [free_eq st h]) (by rw [free_eq st h]) (by rw [free_eq st h])
    ?hU ?hF ?hL1 ?hL2 ?hN
  case hF =>
    refine ⟨rfl, ?_⟩
    rw [freeMem_at_handle_nextIdx st.m_allocList h st.m_freeIdxSwappable hfidx]
    refine freeChainSeg_frame st.m_allocList _ _ ?_ _ _ hFC
    intro x hx
    refine freeMem_other st.m_allocList h st.m_freeIdxSwappable x ?_ ?_ ?_
    · exact hfree_not_used x hx h (by simp)
    · intro he
      rcases hnext_cases with hc | hc
      · have := hfree_x_lt x hx
        rw [he, hc] at this
        omega
      · exact hfree_not_used x hx _ hc he
    · intro he
      rcases hprev_cases with hc | hc
      · have := hfree_x_lt x hx
        rw [he, hc] at this
        omega
      · exact hfree_not_used x hx _ hc he
  case hL1 =>
    intro i hi
    rcases List.mem_append.mp hi with hi | hi
    · exact inv.used_lt i (List.mem_append_left _ hi)
    · exact inv.used_lt i (List.mem_append_right _ (List.mem_cons_of_mem _ hi))
  case hL2 =>
    intro i hi
    rcases List.mem_cons.mp hi with hi | hi
    · omega
    · exact inv.free_lt i hi
  case hN =>
    have e1 : (l1 ++ h :: l2) ++ free = l1 ++ h :: (l2 ++ free) := by simp
    have hn2 : (l1 ++ h :: (l2 ++ free)).Nodup := by rw [← e1]; exact hnod
    have hn3 : (h :: (l1 ++ (l2 ++ free))).Nodup := List.perm_middle.nodup hn2
    have e2 : l1 ++ (l2 ++ free) = (l1 ++ l2) ++ free := by simp
    rw [e2] at hn3
    exact (List.perm_middle).symm.nodup hn3
  case hU =>
    rcases List.eq_nil_or_concat l1 with hl1e | ⟨l1p, k, hl1e⟩
    · subst hl1e
      have hprev0 : (st.m_allocList h).prevIdx = NULL_IDX := hprevh
      have husedH : (if (st.m_allocList h).prevIdx ≠ NULL_IDX then st.m_usedIdxSwappable
          else (st.m_allocList h).nextIdx) = (st.m_allocList h).nextIdx := by
        rw [hprev0]
        simp
      rw [husedH]
      cases l2 with
      | nil => exact hl2chain
      | cons b l2t =>
        have hb : (st.m_allocList h).nextIdx = b := hl2chain.1
        have hbchain : usedChainSeg st.m_allocList (st.m_allocList b).nextIdx b l2t
            NULL_IDX := hl2chain.2.2
        have hblt : b < maxCount := inv.used_lt b (by simp)
        have hbne : b ≠ NULL_IDX := Nat.ne_of_lt (Nat.lt_trans hblt hmax)
        have hbh : b ≠ h := by
          intro he
          exact hhl2 (by rw [← he]; simp)
        have hM : freeMem st.m_allocList h st.m_freeIdxSwappable =
            updF (updF st.m_allocList b ((st.m_allocList b).withPrev NULL_IDX)) h
              (((updF st.m_allocList b ((st.m_allocList b).withPrev NULL_IDX)) h).withNext
                st.m_freeIdxSwappable) := by
          simp only [freeMem]
          rw [hb, hprev0]
          rw [if_pos hbne, if_neg (by simp)]
        have hMb : freeMem st.m_allocList h st.m_freeIdxSwappable b =
            (st.m_allocList b).withPrev NULL_IDX := by
          rw [hM, updF_other _ _ hbh, updF_same]
        rw [hb]
        refine ⟨rfl, ?_, ?_⟩
        · rw [hMb]
          exact withPrev_prevIdx _ _ (by decide)
        · show usedChainSeg _ (SLOTLIST.nextIdx _) b l2t NULL_IDX
          rw [hMb, withPrev_nextIdx]
          refine usedChainSeg_frame st.m_allocList _ _ ?_ _ _ _ hbchain
          intro x hx
          have hx1 : x ≠ h := fun he => hhl2 (he ▸ List.mem_cons_of_mem _ hx)
          have hx2 : x ≠ b := fun he => (List.nodup_cons.mp hl2N).1 (he ▸ hx)
          rw [hM, updF_other _ _ hx1, updF_other _ _ hx2]
    · rw [List.concat_eq_append] at hl1e
      subst hl1e
      have hkmem : k ∈ l1p ++ [k] := by simp
      have hklt : k < maxCount := inv.used_lt k (List.mem_append_left _ hkmem)
      have hkne : k ≠ NULL_IDX := Nat.ne_of_lt (Nat.lt_trans hklt hmax)
      have hkbig : k < 16777216 := by omega
      have hprevk : (st.m_allocList h).prevIdx = k := by
        rw [hprevh, List.getLastD_concat]
      have hkh : k ≠ h := fun he => hhl1 (he ▸ hkmem)
      have husedH : (if (st.m_allocList h).prevIdx ≠ NULL_IDX then st.m_usedIdxSwappable
          else (st.m_allocList h).nextIdx) = st.m_usedIdxSwappable := by
        rw [hprevk]
        rw [if_pos hkne]
      rw [husedH]
      have hpredec := (usedChainSeg_append st.m_allocList l1p [k]
          st.m_usedIdxSwappable NULL_IDX h).mp hpre
      have hpre1 : usedChainSeg st.m_allocList st.m_usedIdxSwappable NULL_IDX l1p k :=
        hpredec.1
      have hkprev : (st.m_allocList k).prevIdx = l1p.getLastD NULL_IDX := hpredec.2.2.1
      have hknext : (st.m_allocList k).nextIdx = h := hpredec.2.2.2
      have hl1pk : k ∉ l1p := by
        rcases List.nodup_append.mp hl1N with ⟨_, _, hd⟩
        intro hc
        exact hd hc (by simp)
      cases l2 with
      | nil =>
        have hnext0 : (st.m_allocList h).nextIdx = NULL_IDX := hl2chain
        have hM : freeMem st.m_allocList h st.m_freeIdxSwappable =
            updF (updF st.m_allocList k ((st.m_allocList k).withNext NULL_IDX)) h
              (((updF st.m_allocList k ((st.m_allocList k).withNext NULL_IDX)) h).withNext
                st.m_freeIdxSwappable) := by
          simp only [freeMem]
          rw [hnext0, hprevk]
          rw [if_pos hkne, if_neg (by simp)]
        have hMk : freeMem st.m_allocList h st.m_freeIdxSwappable k =
            (st.m_allocList k).withNext NULL_IDX := by
          rw [hM, updF_other _ _ hkh, updF_same]
        rw [List.append_nil]
        refine (usedChainSeg_append _ l1p [k] st.m_usedIdxSwappable NULL_IDX NULL_IDX).mpr
          ⟨?_, ?_⟩
        · refine usedChainSeg_frame st.m_allocList _ _ ?_ _ _ _ hpre1
          intro x hx
          have hx1 : x ≠ h := fun he => hhl1 (he ▸ List.mem_append_left _ hx)
          have hx2 : x ≠ k := fun he => hl1pk (he ▸ hx)
          rw [hM, updF_other _ _ hx1, updF_other _ _ hx2]
        · refine ⟨rfl, ?_, ?_⟩
          · rw [hMk, withNext_prevIdx]
            exact hkprev
          · show SLOTLIST.nextIdx _ = NULL_IDX
            rw [hMk]
            exact withNext_nextIdx _ _ (by decide)
      | cons b l2t =>
        have hb : (st.m_allocList h).nextIdx = b := hl2chain.1
        have hbchain : usedChainSeg st.m_allocList (st.m_allocList b).nextIdx b l2t
            NULL_IDX := hl2chain.2.2
        have hblt : b < maxCount := inv.used_lt b (by simp)
        have hbne : b ≠ NULL_IDX := Nat.ne_of_lt (Nat.lt_trans hblt hmax)
        have hbbig : b < 16777216 := by omega
        have hbh : b ≠ h := by
          intro he
          exact hhl2 (by rw [← he]; simp)
        have hbk : b ≠ k := by
          intro he
          apply hDisj12 hkmem
          rw [← he]
          simp
        have hkb : k ≠ b := fun he => hbk he.symm
        have hM : freeMem st.m_allocList h st.m_freeIdxSwappable =
            updF (updF (updF st.m_allocList b ((st.m_allocList b).withPrev k)) k
                (((updF st.m_allocList b ((st.m_allocList b).withPrev k)) k).withNext b)) h
              (((updF (updF st.m_allocList b ((st.m_allocList b).withPrev k)) k
                (((updF st.m_allocList b ((st.m_allocList b).withPrev k)) k).withNext b))
                  h).withNext st.m_freeIdxSwappable) := by
          simp only [freeMem]
          rw [hb, hprevk]
          rw [if_pos hbne, if_pos hkne]
        have hMb : freeMem st.m_allocList h st.m_freeIdxSwappable b =
            (st.m_allocList b).withPrev k := by
          rw [hM, updF_other _ _ hbh, updF_other _ _ hbk, updF_same]
        have hMk : freeMem st.m_allocList h st.m_freeIdxSwappable k =
            (st.m_allocList k).withNext b := by
          rw [hM, updF_other _ _ hkh, updF_same, updF_other _ _ hkb]
        have hMother3 : ∀ x, x ≠ b → x ≠ k → x ≠ h →
            freeMem st.m_allocList h st.m_freeIdxSwappable x = st.m_allocList x := by
          intro x h1 h2 h3
          rw [hM, updF_other _ _ h3, updF_other _ _ h2, updF_other _ _ h1]
        refine (usedChainSeg_append _ (l1p ++ [k]) (b :: l2t)
          st.m_usedIdxSwappable NULL_IDX NULL_IDX).mpr ⟨?_, ?_⟩
        · refine (usedChainSeg_append _ l1p [k] st.m_usedIdxSwappable NULL_IDX _).mpr
            ⟨?_, ?_⟩
          · refine usedChainSeg_frame st.m_allocList _ _ ?_ _ _ _ hpre1
            intro x hx
            have hx1 : x ≠ h := fun he => hhl1 (he ▸ List.mem_append_left _ hx)
            have hx2 : x ≠ k := fun he => hl1pk (he ▸ hx)
            have hx3 : x ≠ b := by
              intro he
              exact hDisj12 (List.mem_append_left _ hx) (by rw [← he]; simp)
            exact hMother3 x hx3 hx2 hx1
          · refine ⟨rfl, ?_, ?_⟩
            · rw [hMk, withNext_prevIdx]
              exact hkprev
            · show SLOTLIST.nextIdx _ = _
              rw [hMk]
              exact withNext_nextIdx _ _ hbbig
        · rw [List.getLastD_concat]
          refine ⟨rfl, ?_, ?_⟩
          · rw [hMb]
            exact withPrev_prevIdx _ _ hkbig
          · show usedChainSeg _ (SLOTLIST.nextIdx _) b l2t NULL_IDX
            rw [hMb, withPrev_nextIdx]
            refine usedChainSeg_frame st.m_allocList _ _ ?_ _ _ _ hbchain
            intro x hx
            have hx1 : x ≠ h := fun he => hhl2 (he ▸ List.mem_cons_of_mem _ hx)
            have hx2 : x ≠ b := fun he => (List.nodup_cons.mp hl2N).1 (he ▸ hx)
            have hx3 : x ≠ k := by
              intro he
              apply hDisj12 hkmem
              rw [← he]
              simp [hx]
            exact hMother3 x hx2 hx3 hx1

theorem reached_inv (maxCount : Nat) (hmax : maxCount < NULL_IDX) :
    ∀ st used free, Reached maxCount st used free → MgrInv maxCount st used free := by
  intro st used free hr
  induction hr with
  | base st0 bufferSize hsz => exact mgrInv_init maxCount hmax st0 bufferSize hsz
  | reg st0 used0 f0 ft t _ ih => exact MgrInv.alloc maxCount hmax st0 used0 f0 ft ih t
  | unreg st0 free0 h l1 l2 _ ih => exact MgrInv.free maxCount hmax st0 free0 h l1 l2 ih

/-- C5 (amended): after every within-capacity sequence of register/unregister
calls from a successfully initialized manager, the used-list head is either
the null sentinel or a valid slot index whose link node's prev is the null
sentinel; the free-list head, however, is only a valid slot index or the
out-of-range index `maxCount` left chained by initialization, and nothing
holds of its node's prev parts — `freeSwappable` never writes them (see the
counterexample for the original claim). -/
theorem c5_amended_heads (maxCount : Nat) (hmax : maxCount < NULL_IDX)
    (st : SwappableManager) (used free : List Nat)
    (hr : Reached maxCount st used free) :
    (st.m_usedIdxSwappable = NULL_IDX ∨
      (st.m_usedIdxSwappable < maxCount ∧
       (st.m_allocList st.m_usedIdxSwappable).prevIdx = NULL_IDX)) ∧
    (st.m_freeIdxSwappable < maxCount ∨ st.m_freeIdxSwappable = maxCount) := by
  have inv := reached_inv maxCount hmax st used free hr
  constructor
  · cases used with
    | nil => exact Or.inl inv.used_ok
    | cons a rest =>
      right
      have h1 := inv.used_ok
      have ha : st.m_usedIdxSwappable = a := h1.1
      constructor
      · rw [ha]
        exact inv.used_lt a (by simp)
      · rw [ha]
        exact h1.2.1
  · cases free with
    | nil =>
      right
      exact inv.free_ok.1
    | cons g gt =>
      left
      have hg : st.m_freeIdxSwappable = g := inv.free_ok.1
      rw [hg]
      exact inv.free_lt g (by simp)

/-- Witness for `c5_amended_heads` at the freshly initialized capacity-1
manager. -/
theorem c5_amended_witness :
    (st_cap1.m_usedIdxSwappable = NULL_IDX ∨
      (st_cap1.m_usedIdxSwappable < 1 ∧
       (st_cap1.m_allocList st_cap1.m_usedIdxSwappable).prevIdx = NULL_IDX)) ∧
    (st_cap1.m_freeIdxSwappable < 1 ∨ st_cap1.m_freeIdxSwappable = 1) :=
  c5_amended_heads 1 (by decide) st_cap1 [] (List.range 1)
    (Reached.base zeroState (SwappableManager.getAllocSize 1) (le_refl _))
